import Mathlib

/-!
# Verification of `geoplot.py` (`GeoPlot.render`)

Shallow embedding of the `GeoPlot` visualization exporter.  The Python
source reads a simulation state trajectory, extracts coordinates and
per-episode property values, builds an evenly spaced timeline, assembles
GeoJSON feature collections, and writes two files (a `.geojson` data file
and a `.html` viewer page).

Modelling choices:
* A state snapshot is an abstract type `σ`; the two `read_var` calls
  (`self.entity_position`, `self.entity_property`, each followed by the
  numpy `tolist`/`flatten().tolist()` conversion) are modelled as
  `Option`-returning reader functions carried in `Options` — `none`
  models a lookup error raised by `get_by_path`.
* Timestamps are integers: the offset in seconds from the Unix epoch.
  `pd.Timestamp.utcnow()` becomes an explicit `origin : Int` parameter,
  and `origin + pd.Timedelta(seconds = k * step_time)` becomes
  `origin + k * step_time`.
* The dictionaries read from `self.config` model Python `dict` lookups:
  each expected key is an `Option` field, `none` meaning the key is
  absent (a `KeyError` in Python).
* Python exceptions become `Except Err` / an `Option Err` outcome;
  evaluation order of the Python statements is preserved so that the
  *first* error raised is the one reported.
* The filesystem is a map from path strings to structured file states,
  guarded by a `canWrite` oracle (`false` models an `IOError` raised by
  `open`, leaving the file untouched).  A successful `open(path, "w")`
  truncates or creates the file — state `FileContent.empty` — and the
  subsequent write replaces that state with the full content.  For the
  geodata file nothing the model tracks can fail between its `open` and
  `json.dump`, so the two are collapsed into the single content write;
  for the HTML file, `tmpl.substitute` evaluates `timestamps[0]` and
  `timestamps[-1]` between the `open` and `f.write`, and can raise an
  index error, so the truncation is modelled as a separate effect that
  survives the error.  File contents are kept structured (the feature
  collections themselves, and the five template substitutions); byte
  serialization is a function of this structured content.
-/

/-- The kinds of Python exceptions `render` can raise. -/
inductive Err where
  | keyError
  | lookupError
  | indexError
  | ioError
deriving DecidableEq, Repr

/-- One GeoJSON feature, as built in the assembly loop of `render`:
`geometry.coordinates = [coord[1], coord[0]]`, `properties.value`,
`properties.time`. -/
structure Feature (α : Type) where
  coordinates : List α
  value : α
  time : Int
deriving DecidableEq, Repr

/-- The five template substitutions written into the HTML file. -/
structure HtmlOut (α : Type) where
  accessToken : String
  startTime : Int
  stopTime : Int
  data : List (List (Feature α))
  visualType : String
deriving DecidableEq, Repr

/-- Structured content of an output file: a file just truncated/created
by `open(path, "w")` with nothing written to it yet, the GeoJSON data
file (a list of feature collections, each a list of features), or the
filled HTML template. -/
inductive FileContent (α : Type) where
  | empty : FileContent α
  | geojson : List (List (Feature α)) → FileContent α
  | html : HtmlOut α → FileContent α
deriving DecidableEq, Repr

/-- A filesystem: paths to file contents. -/
def FS (α : Type) : Type := String → Option (FileContent α)

/-- Replacing the state of one file: used for the truncation performed
by `open(path, "w")` and for writing the full serialized content. -/
def FS.update (fs : FS α) (p : String) (c : FileContent α) : FS α :=
  fun q => if q = p then some c else fs q

/-- The empty filesystem. -/
def FS.empty (α : Type) : FS α := fun _ => none

/-- The `options` dictionary captured by `GeoPlot.__init__`, with the two
state paths replaced by their reading functions: `readPos s` models
`np.array(read_var(s, self.entity_position)).tolist()` and `readVal s`
models `np.array(read_var(s, self.entity_property)).flatten().tolist()`;
`none` models a lookup error from `get_by_path`. -/
structure Options (σ α : Type) where
  cesium_token : String
  step_time : Int
  readPos : σ → Option (List (List α))
  readVal : σ → Option (List α)
  visualization_type : String

/-- `config["simulation_metadata"]`: each key is optional, `none`
modelling a missing key (`KeyError`). -/
structure SimMetadata where
  name : Option String
  num_episodes : Option Nat
  num_steps_per_episode : Option Nat

/-- `self.config`: only the `simulation_metadata` key is read. -/
structure Config where
  simulation_metadata : Option SimMetadata

/-- The body of one iteration of the extraction loop:
`final_state = state_trajectory[i][-1]`, then the two `read_var` calls,
in source order. -/
def extractStep (opts : Options σ α) (episode : List σ) :
    Except Err (List (List α) × List α) :=
  match episode.getLast? with
  | none => .error .indexError
  | some finalState =>
    match opts.readPos finalState with
    | none => .error .lookupError
    | some cs =>
      match opts.readVal finalState with
      | none => .error .lookupError
      | some vs => .ok (cs, vs)

/-- The extraction loop over the visited episodes.  The accumulator pair
mirrors the two Python locals: `coords` is overwritten by each
iteration, `values` grows by one flattened list per iteration. -/
def extractLoop (opts : Options σ α) :
    List (List σ) → List (List α) → List (List α) →
    Except Err (List (List α) × List (List α))
  | [], coords, values => .ok (coords, values)
  | ep :: rest, _coords, values =>
    match extractStep opts ep with
    | .error e => .error e
    | .ok (cs, vs) => extractLoop opts rest cs (values ++ [vs])

/-- Lines 193–203 of `geoplot.py`: `coords, values = [], []` followed by
`for i in range(0, len(state_trajectory) - 1): ...` — the loop visits
every episode except the last. -/
def extract (opts : Options σ α) (trajectory : List (List σ)) :
    Except Err (List (List α) × List (List α)) :=
  extractLoop opts trajectory.dropLast [] []

/-- Lines 206–213: the timeline.  `total` steps spaced `step` seconds
from `origin`. -/
def buildTimestamps (origin step : Int) (total : Nat) : List Int :=
  (List.range total).map fun (k : Nat) => origin + (k : Int) * step

/-- One feature dictionary literal (lines 220–232), with the three
subscripts evaluated in source order: `coord[1]`, `coord[0]`,
`value_list[i]`. -/
def mkFeature (coord : List α) (i : Nat) (t : Int) (vl : List α) :
    Except Err (Feature α) :=
  match coord[1]? with
  | none => .error .indexError
  | some c1 =>
    match coord[0]? with
    | none => .error .indexError
    | some c0 =>
      match vl[i]? with
      | none => .error .indexError
      | some v => .ok { coordinates := [c1, c0], value := v, time := t }

/-- The inner assembly loop: `for time, value_list in zip(timestamps,
values): features.append(...)` for entity index `i`. -/
def buildFeatures (coord : List α) (i : Nat) :
    List (Int × List α) → Except Err (List (Feature α))
  | [] => .ok []
  | (t, vl) :: rest =>
    match mkFeature coord i t vl with
    | .error e => .error e
    | .ok f =>
      match buildFeatures coord i rest with
      | .error e => .error e
      | .ok fs => .ok (f :: fs)

/-- The outer assembly loop: `for i, coord in enumerate(coords):
... geojsons.append({"type": "FeatureCollection", "features": features})`. -/
def assembleLoop (ts : List Int) (values : List (List α)) :
    List (Nat × List α) → Except Err (List (List (Feature α)))
  | [] => .ok []
  | (i, coord) :: rest =>
    match buildFeatures coord i (ts.zip values) with
    | .error e => .error e
    | .ok fl =>
      match assembleLoop ts values rest with
      | .error e => .error e
      | .ok fls => .ok (fl :: fls)

/-- Lines 215–233: build one feature collection per entity index. -/
def assemble (coords : List (List α)) (ts : List Int)
    (values : List (List α)) : Except Err (List (List (Feature α))) :=
  assembleLoop ts values coords.enum

/-- `GeoPlot.render` (lines 192–252).  Reads the simulation name, runs
the extraction loop, builds the timeline, assembles the feature
collections, writes the `.geojson` file, then opens the `.html` file
(truncating/creating it), fills the template — evaluating
`timestamps[0]` / `timestamps[-1]`, which raises an index error on an
empty timeline, after the `open` has already truncated the file — and
writes the result.  Returns the filesystem after the call together with
the raised exception, if any (`none` = normal return).  Statement order
matches the source, so the reported error is the first one raised. -/
def render (opts : Options σ α) (cfg : Config) (canWrite : String → Bool)
    (origin : Int) (trajectory : List (List σ)) (fs : FS α) :
    FS α × Option Err :=
  match cfg.simulation_metadata with
  | none => (fs, some .keyError)
  | some md =>
    match md.name with
    | none => (fs, some .keyError)
    | some name =>
      let geodata_path := name ++ ".geojson"
      let geoplot_path := name ++ ".html"
      match extract opts trajectory with
      | .error e => (fs, some e)
      | .ok (coords, values) =>
        match md.num_episodes with
        | none => (fs, some .keyError)
        | some ne =>
          match md.num_steps_per_episode with
          | none => (fs, some .keyError)
          | some ns =>
            let timestamps := buildTimestamps origin opts.step_time (ne * ns)
            match assemble coords timestamps values with
            | .error e => (fs, some e)
            | .ok geojsons =>
              if canWrite geodata_path then
                let fs1 := FS.update fs geodata_path (.geojson geojsons)
                if canWrite geoplot_path then
                  let fs2 := FS.update fs1 geoplot_path .empty
                  match timestamps.head?, timestamps.getLast? with
                  | some t0, some t1 =>
                    (FS.update fs2 geoplot_path
                      (.html { accessToken := opts.cesium_token,
                               startTime := t0, stopTime := t1,
                               data := geojsons,
                               visualType := opts.visualization_type }),
                     none)
                  | _, _ => (fs2, some .indexError)
                else (fs1, some .ioError)
              else (fs, some .ioError)

/-- Options whose two readers always succeed (every path lookup works),
built from total reading functions. -/
def totalOptions (token : String) (step : Int) (posF : σ → List (List α))
    (valF : σ → List α) (vt : String) : Options σ α :=
  { cesium_token := token
    step_time := step
    readPos := fun s => some (posF s)
    readVal := fun s => some (valF s)
    visualization_type := vt }

/-- The last snapshot of an episode (total version, for stating the
results of the extraction loop on nonempty episodes). -/
def lastSnap [Inhabited σ] (ep : List σ) : σ :=
  ep.getLast?.getD default

/-- What the extraction loop leaves in `coords`: the position list read
from the final snapshot of the last visited episode (empty if no episode
is visited). -/
def coordsSpec [Inhabited σ] (posF : σ → List (List α))
    (trajectory : List (List σ)) : List (List α) :=
  (trajectory.dropLast.map fun ep => posF (lastSnap ep)).getLastD []

/-- What the extraction loop appends to `values`: one flattened property
list per visited episode, read from that episode's final snapshot. -/
def valuesSpec [Inhabited σ] (valF : σ → List α)
    (trajectory : List (List σ)) : List (List α) :=
  trajectory.dropLast.map fun ep => valF (lastSnap ep)

/-- The pure value of one assembled feature (used to state what the
assembly loop produces when no subscript is out of range). -/
def featureSpec [Inhabited α] (coord : List α) (i : Nat)
    (p : Int × List α) : Feature α :=
  { coordinates := [coord.getD 1 default, coord.getD 0 default]
    value := p.2.getD i default
    time := p.1 }

/-- The pure value of the assembled feature collections when no
subscript is out of range. -/
def assembleSpec [Inhabited α] (coords : List (List α)) (ts : List Int)
    (values : List (List α)) : List (List (Feature α)) :=
  coords.enum.map fun q => (ts.zip values).map (featureSpec q.2 q.1)

/-- The index swap applied to a stored coordinate pair when emitting
geometry coordinates: `[coord[1], coord[0]]`. -/
def swapCoord [Inhabited α] (l : List α) : List α :=
  [l.getD 1 default, l.getD 0 default]

/-- A concrete snapshot type for concrete scenarios: the two readable
fields are stored directly. -/
structure Snap where
  pos : List (List ℚ)
  val : List ℚ
deriving Repr, DecidableEq

instance : Inhabited Snap := ⟨⟨[], []⟩⟩

/-- Position reader for `Snap`. -/
def Snap.posF (s : Snap) : List (List ℚ) := s.pos

/-- Property reader for `Snap`. -/
def Snap.valF (s : Snap) : List ℚ := s.val

/-- C4: for `num_episodes`, `num_steps_per_episode` positive and
`step_time` a positive integer, the timeline has length exactly
`num_episodes * num_steps_per_episode`, satisfies
`timestamps[k] = origin + k * step_time` for every `k` below the total,
and consecutive timestamps differ by exactly `step_time` and are
strictly increasing. -/
theorem c4_timeline (origin step : Int) (ne ns : Nat)
    (h1 : 0 < ne) (h2 : 0 < ns) (h3 : 0 < step) :
    (buildTimestamps origin step (ne * ns)).length = ne * ns
    ∧ (∀ k, k < ne * ns →
        (buildTimestamps origin step (ne * ns))[k]? =
          some (origin + (k : Int) * step))
    ∧ (∀ k, k + 1 < ne * ns → ∃ a b,
        (buildTimestamps origin step (ne * ns))[k]? = some a
        ∧ (buildTimestamps origin step (ne * ns))[k + 1]? = some b
        ∧ b = a + step ∧ a < b) := by
  refine ⟨by simp only [buildTimestamps, List.length_map, List.length_range],
    ?_, ?_⟩
  · intro k hk
    simp only [buildTimestamps, List.getElem?_map, List.getElem?_range hk,
      Option.map_some']
  · intro k hk
    refine ⟨origin + (k : Int) * step, origin + ((k : Int) + 1) * step,
      ?_, ?_, by ring, by nlinarith⟩
    · simp only [buildTimestamps, List.getElem?_map,
        List.getElem?_range (Nat.lt_of_succ_lt hk), Option.map_some']
    · simp only [buildTimestamps, List.getElem?_map, List.getElem?_range hk,
        Option.map_some', Option.some.injEq]
      push_cast
      ring

/-- Witness for `c4_timeline` at `origin = 100`, `step = 60`,
`ne = 2`, `ns = 3`. -/
theorem c4_timeline_witness :
    (buildTimestamps 100 60 (2 * 3)).length = 2 * 3
    ∧ (∀ k : Nat, k < 2 * 3 →
        (buildTimestamps 100 60 (2 * 3))[k]? = some (100 + (k : Int) * 60))
    ∧ (∀ k : Nat, k + 1 < 2 * 3 → ∃ a b,
        (buildTimestamps 100 60 (2 * 3))[k]? = some a
        ∧ (buildTimestamps 100 60 (2 * 3))[k + 1]? = some b
        ∧ b = a + 60 ∧ a < b) :=
  c4_timeline 100 60 2 3 (by decide) (by decide) (by decide)

/-- The concrete trajectory of the scenario in §8 of the spec: three
episodes of two snapshots each; the last snapshot of episode 0 carries
positions `[[50,60],[70,80]]` and values `[1,2]`; the last snapshot of
episode 1 carries positions `[[10,20],[30,40]]` and values `[3,4]`. -/
def trajC5 : List (List Snap) :=
  [[⟨[], []⟩, ⟨[[50, 60], [70, 80]], [1, 2]⟩],
   [⟨[], []⟩, ⟨[[10, 20], [30, 40]], [3, 4]⟩],
   [⟨[], []⟩, ⟨[], []⟩]]

/-- The configuration of the §8 scenario: `num_episodes = 3`,
`num_steps_per_episode = 2`. -/
def cfgC5 : Config := ⟨some ⟨some "sim", some 3, some 2⟩⟩

/-- The options of the §8 scenario: `step_time = 3600`. -/
def optsC5 : Options Snap ℚ :=
  totalOptions "tok" 3600 Snap.posF Snap.valF "color"

/-- C5: in the 3-episodes/2-snapshots scenario, the timeline has 6
timestamps, `render` succeeds, and the geodata file holds one feature
collection per entity with `min 6 2 = 2` features each; entity 0's
features carry values `1` and `3` at timestamps `0` and `3600`
(timestamps 0 and 1 of the timeline). -/
theorem c5_scenario :
    (buildTimestamps 0 3600 (3 * 2)).length = 6
    ∧ (render optsC5 cfgC5 (fun _ => true) 0 trajC5 (FS.empty ℚ)).2 = none
    ∧ (render optsC5 cfgC5 (fun _ => true) 0 trajC5 (FS.empty ℚ)).1
        "sim.geojson" =
      some (.geojson
        [[{ coordinates := [20, 10], value := 1, time := 0 },
          { coordinates := [20, 10], value := 3, time := 3600 }],
         [{ coordinates := [40, 30], value := 2, time := 0 },
          { coordinates := [40, 30], value := 4, time := 3600 }]]) := by
  refine ⟨by decide, by decide, by decide⟩

/-- On a nonempty episode, one iteration of the extraction loop reads
the positions and the flattened values of the final snapshot. -/
theorem extractStep_total [Inhabited σ] (token : String) (step : Int)
    (posF : σ → List (List α)) (valF : σ → List α) (vt : String)
    (ep : List σ) (hep : ep ≠ []) :
    extractStep (totalOptions token step posF valF vt) ep =
      .ok (posF (lastSnap ep), valF (lastSnap ep)) := by
  obtain ⟨s, hs⟩ : ∃ s, ep.getLast? = some s := by
    cases hlast : ep.getLast? with
    | none => exact absurd (List.getLast?_eq_none_iff.mp hlast) hep
    | some s => exact ⟨s, rfl⟩
  simp [extractStep, totalOptions, lastSnap, hs]

theorem extractLoop_total [Inhabited σ] (token : String) (step : Int)
    (posF : σ → List (List α)) (valF : σ → List α) (vt : String) :
    ∀ (eps : List (List σ)) (c0 : List (List α)) (v0 : List (List α)),
    (∀ ep ∈ eps, ep ≠ []) →
    extractLoop (totalOptions token step posF valF vt) eps c0 v0 =
      .ok ((eps.map fun ep => posF (lastSnap ep)).getLastD c0,
           v0 ++ eps.map fun ep => valF (lastSnap ep)) := by
  intro eps
  induction eps with
  | nil => intro c0 v0 _; simp [extractLoop]
  | cons ep rest ih =>
    intro c0 v0 h
    have hep : ep ≠ [] := h ep (List.mem_cons_self ep rest)
    simp only [extractLoop,
      extractStep_total token step posF valF vt ep hep]
    rw [ih (posF (lastSnap ep)) (v0 ++ [valF (lastSnap ep)])
      (fun e he => h e (List.mem_cons_of_mem ep he))]
    simp only [List.map_cons]
    refine congrArg Except.ok (Prod.ext ?_ (by simp [List.append_assoc]))
    cases hrest : rest.getLast? with
    | none =>
      have hnil : rest = [] := List.getLast?_eq_none_iff.mp hrest
      subst hnil; simp
    | some b =>
      simp [List.getLast?_cons, List.getLast?_map, hrest]

/-- On a trajectory whose visited episodes are all nonempty, `extract`
returns exactly `(coordsSpec, valuesSpec)`. -/
theorem extract_total [Inhabited σ] (token : String) (step : Int)
    (posF : σ → List (List α)) (valF : σ → List α) (vt : String)
    (traj : List (List σ)) (h : ∀ ep ∈ traj.dropLast, ep ≠ []) :
    extract (totalOptions token step posF valF vt) traj =
      .ok (coordsSpec posF traj, valuesSpec valF traj) := by
  unfold extract coordsSpec valuesSpec
  rw [extractLoop_total token step posF valF vt traj.dropLast [] [] h]
  simp

/-- A trajectory with at most one episode has no visited episode. -/
theorem dropLast_eq_nil_of_le_one (l : List (List σ)) (h : l.length ≤ 1) :
    l.dropLast = [] := by
  rw [List.dropLast_eq_take]
  have : l.length - 1 = 0 := by omega
  rw [this, List.take_zero]

/-- C2: on a trajectory with `E` episodes (all visited ones nonempty),
the extraction loop of `render` visits exactly episodes `0 .. E-2`,
reading only each visited episode's final snapshot: `values_per_episode`
has length `E - 1` and its `j`-th entry is the flattened property list
of episode `j`'s final snapshot; when `E ≤ 1` the loop body never runs,
`coords` and `values_per_episode` stay empty, and the assembler then
produces no feature collections. -/
theorem c2_extraction_loop [Inhabited σ] (token : String) (step : Int)
    (posF : σ → List (List α)) (valF : σ → List α) (vt : String)
    (traj : List (List σ)) (h : ∀ ep ∈ traj.dropLast, ep ≠ []) :
    extract (totalOptions token step posF valF vt) traj =
      .ok (coordsSpec posF traj, valuesSpec valF traj)
    ∧ (valuesSpec valF traj).length = traj.length - 1
    ∧ (∀ j, j < traj.length - 1 →
        (valuesSpec valF traj)[j]? =
          (traj[j]?).map fun ep => valF (lastSnap ep))
    ∧ (traj.length ≤ 1 →
        coordsSpec posF traj = [] ∧ valuesSpec valF traj = []
        ∧ ∀ ts : List Int,
          assemble (coordsSpec posF traj) ts (valuesSpec valF traj) =
            .ok []) := by
  refine ⟨extract_total token step posF valF vt traj h, ?_, ?_, ?_⟩
  · simp [valuesSpec]
  · intro j hj
    simp only [valuesSpec, List.getElem?_map, List.getElem?_dropLast]
    rw [if_pos hj]
  · intro hle
    have hnil := dropLast_eq_nil_of_le_one traj hle
    refine ⟨by simp [coordsSpec, hnil], by simp [valuesSpec, hnil], ?_⟩
    intro ts
    simp [coordsSpec, hnil, assemble, assembleLoop, List.enum]

/-- C3: on a trajectory with `E ≥ 2` episodes (all visited ones
nonempty), the `coords` buffer is overwritten on every iteration, so the
extracted `coords` equals exactly the position list read from the final
snapshot of episode `E - 2`, the last visited one; positions read from
earlier episodes do not survive. -/
theorem c3_coords_last_write [Inhabited σ] (token : String) (step : Int)
    (posF : σ → List (List α)) (valF : σ → List α) (vt : String)
    (traj : List (List σ)) (h2 : 2 ≤ traj.length)
    (h : ∀ ep ∈ traj.dropLast, ep ≠ []) :
    extract (totalOptions token step posF valF vt) traj =
      .ok (coordsSpec posF traj, valuesSpec valF traj)
    ∧ (traj[traj.length - 2]?).map (fun ep => posF (lastSnap ep)) =
        some (coordsSpec posF traj) := by
  refine ⟨extract_total token step posF valF vt traj h, ?_⟩
  have hlen : traj.dropLast.length = traj.length - 1 := by
    simp [List.length_dropLast]
  have hidx : traj.length - 2 < traj.length - 1 := by omega
  have hmem : traj.dropLast[traj.length - 2]? = traj[traj.length - 2]? := by
    rw [List.getElem?_dropLast, if_pos hidx]
  rw [coordsSpec, List.getLastD_eq_getLast?, List.getLast?_eq_getElem?]
  simp only [List.length_map, hlen, List.getElem?_map]
  have : traj.length - 1 - 1 = traj.length - 2 := by omega
  rw [this, hmem]
  cases hget : traj[traj.length - 2]? with
  | none =>
    have hlt : traj.length - 2 < traj.length := by omega
    rw [List.getElem?_eq_getElem hlt] at hget
    exact absurd hget (by simp)
  | some ep => simp

/-- Witness for `c2_extraction_loop` at the concrete trajectory of the
§8 scenario. -/
theorem c2_extraction_loop_witness :
    extract (totalOptions "tok" 3600 Snap.posF Snap.valF "color") trajC5 =
      .ok (coordsSpec Snap.posF trajC5, valuesSpec Snap.valF trajC5)
    ∧ (valuesSpec Snap.valF trajC5).length = trajC5.length - 1 :=
  ⟨(c2_extraction_loop "tok" 3600 Snap.posF Snap.valF "color" trajC5
      (by decide)).1,
   (c2_extraction_loop "tok" 3600 Snap.posF Snap.valF "color" trajC5
      (by decide)).2.1⟩

/-- Witness for `c3_coords_last_write` at the concrete trajectory of the
§8 scenario. -/
theorem c3_coords_last_write_witness :
    extract (totalOptions "tok" 3600 Snap.posF Snap.valF "color") trajC5 =
      .ok (coordsSpec Snap.posF trajC5, valuesSpec Snap.valF trajC5)
    ∧ (trajC5[trajC5.length - 2]?).map
        (fun ep => Snap.posF (lastSnap ep)) =
      some (coordsSpec Snap.posF trajC5) :=
  c3_coords_last_write "tok" 3600 Snap.posF Snap.valF "color" trajC5
    (by decide) (by decide)

/-- With all three subscripts in range, one feature is built as
`featureSpec` describes. -/
theorem mkFeature_ok [Inhabited α] (coord : List α) (i : Nat) (t : Int)
    (vl : List α) (hc : 2 ≤ coord.length) (hv : i < vl.length) :
    mkFeature coord i t vl = .ok (featureSpec coord i (t, vl)) := by
  unfold mkFeature featureSpec
  rw [List.getElem?_eq_getElem (show 1 < coord.length by omega),
      List.getElem?_eq_getElem (show 0 < coord.length by omega),
      List.getElem?_eq_getElem hv]
  simp [List.getD_eq_getElem?_getD,
    List.getElem?_eq_getElem (show 1 < coord.length by omega),
    List.getElem?_eq_getElem (show 0 < coord.length by omega),
    List.getElem?_eq_getElem hv]

/-- With the coordinate pair and every paired value list long enough,
the inner assembly loop maps `featureSpec` over the zipped pairs. -/
theorem buildFeatures_ok [Inhabited α] (coord : List α) (i : Nat)
    (hc : 2 ≤ coord.length) :
    ∀ pairs : List (Int × List α), (∀ p ∈ pairs, i < p.2.length) →
    buildFeatures coord i pairs = .ok (pairs.map (featureSpec coord i)) := by
  intro pairs
  induction pairs with
  | nil => intro _; simp [buildFeatures]
  | cons p rest ih =>
    intro h
    obtain ⟨t, vl⟩ := p
    have hv : i < vl.length := h (t, vl) (List.mem_cons_self _ _)
    simp only [buildFeatures, mkFeature_ok coord i t vl hc hv,
      ih fun q hq => h q (List.mem_cons_of_mem _ hq)]
    simp

/-- With every coordinate pair and every paired value list long enough,
the outer assembly loop succeeds and produces `assembleSpec`. -/
theorem assemble_ok [Inhabited α] (coords : List (List α)) (ts : List Int)
    (values : List (List α))
    (hb : ∀ coord ∈ coords, 2 ≤ coord.length)
    (hc : ∀ p ∈ ts.zip values, coords.length ≤ p.2.length) :
    assemble coords ts values = .ok (assembleSpec coords ts values) := by
  unfold assemble assembleSpec
  have main : ∀ (entities : List (Nat × List α)),
      (∀ q ∈ entities, 2 ≤ q.2.length ∧ q.1 < coords.length) →
      assembleLoop ts values entities =
        .ok (entities.map fun q => (ts.zip values).map (featureSpec q.2 q.1)) := by
    intro entities
    induction entities with
    | nil => intro _; simp [assembleLoop]
    | cons q rest ih =>
      intro h
      obtain ⟨i, coord⟩ := q
      obtain ⟨hq2, hq1⟩ := h (i, coord) (List.mem_cons_self _ _)
      have hall : ∀ p ∈ ts.zip values, i < p.2.length := by
        intro p hp
        exact lt_of_lt_of_le hq1 (hc p hp)
      simp only [assembleLoop, buildFeatures_ok coord i hq2 (ts.zip values) hall,
        ih fun r hr => h r (List.mem_cons_of_mem _ hr)]
      simp
  refine main coords.enum ?_
  rintro ⟨i, c⟩ hq
  have hmem : coords[i]? = some c := List.mk_mem_enum_iff_getElem?.mp hq
  obtain ⟨hlt, hget⟩ := List.getElem?_eq_some_iff.mp hmem
  exact ⟨hb c (hget ▸ List.getElem_mem hlt), hlt⟩

/-- C1: in the assembly step, when every coordinate has at least two
components and every flattened value list covers all entities, each
entity index `i` below `len coords` yields exactly
`min (len timestamps) (len values_per_episode)` features; the `t`-th
feature of entity `i` carries value `values_per_episode[t][i]` and the
`t`-th timestamp, and surplus timestamps beyond `len values_per_episode`
produce no features. -/
theorem c1_assembly [Inhabited α] (coords values : List (List α))
    (ts : List Int)
    (hb : ∀ coord ∈ coords, 2 ≤ coord.length)
    (hc : ∀ vl ∈ values, coords.length ≤ vl.length) :
    assemble coords ts values = .ok (assembleSpec coords ts values)
    ∧ (assembleSpec coords ts values).length = coords.length
    ∧ ∀ (i : Nat) (fl : List (Feature α)),
        (assembleSpec coords ts values)[i]? = some fl →
        fl.length = min ts.length values.length
        ∧ ∀ (t : Nat) (f : Feature α), fl[t]? = some f →
            ts[t]? = some f.time
            ∧ ∃ vl, values[t]? = some vl ∧ vl[i]? = some f.value := by
  have hc' : ∀ p ∈ ts.zip values, coords.length ≤ p.2.length :=
    fun p hp => hc p.2 (List.of_mem_zip hp).2
  refine ⟨assemble_ok coords ts values hb hc', by simp [assembleSpec], ?_⟩
  intro i fl hfl
  simp only [assembleSpec, List.getElem?_map, List.getElem?_enum] at hfl
  cases hcoord : coords[i]? with
  | none => rw [hcoord] at hfl; simp at hfl
  | some coord =>
    rw [hcoord] at hfl
    simp only [Option.map_some', Option.some.injEq] at hfl
    have hi : i < coords.length := (List.getElem?_eq_some_iff.mp hcoord).1
    subst hfl
    refine ⟨by simp [List.length_zip], ?_⟩
    intro t f hf
    simp only [List.getElem?_map] at hf
    cases hp : (ts.zip values)[t]? with
    | none => rw [hp] at hf; simp at hf
    | some p =>
      rw [hp] at hf
      simp only [Option.map_some', Option.some.injEq] at hf
      obtain ⟨hts, hvs⟩ := List.getElem?_zip_eq_some.mp hp
      obtain ⟨a, b⟩ := p
      subst hf
      refine ⟨hts, b, hvs, ?_⟩
      have hvmem : b ∈ values := List.getElem?_mem hvs
      have hblen : i < b.length := lt_of_lt_of_le hi (hc b hvmem)
      rw [List.getElem?_eq_getElem hblen]
      simp [featureSpec, List.getD_eq_getElem?_getD,
        List.getElem?_eq_getElem hblen]

/-- Witness for `c1_assembly` on the §8 scenario data. -/
theorem c1_assembly_witness :
    assemble [[(10 : ℚ), 20], [30, 40]] [0, 3600] [[1, 2], [3, 4]] =
      .ok (assembleSpec [[(10 : ℚ), 20], [30, 40]] [0, 3600]
        [[1, 2], [3, 4]])
    ∧ (assembleSpec [[(10 : ℚ), 20], [30, 40]] [0, 3600]
        [[1, 2], [3, 4]]).length = ([[(10 : ℚ), 20], [30, 40]]).length :=
  ⟨(c1_assembly [[(10 : ℚ), 20], [30, 40]] [[1, 2], [3, 4]] [0, 3600]
      (by decide) (by decide)).1,
   (c1_assembly [[(10 : ℚ), 20], [30, 40]] [[1, 2], [3, 4]] [0, 3600]
      (by decide) (by decide)).2.1⟩

/-- C6: for a stored coordinate pair with at least two components, the
emitted geometry coordinates are exactly `[coord[1], coord[0]]`, so
applying the same index swap to the output recovers the original first
two components, and on exact pairs the swap is an involution. -/
theorem c6_coordinate_swap [Inhabited α] (coord : List α) (i : Nat)
    (t : Int) (vl : List α) (hc : 2 ≤ coord.length) (hv : i < vl.length) :
    ∃ f, mkFeature coord i t vl = .ok f
    ∧ f.coordinates = swapCoord coord
    ∧ swapCoord f.coordinates =
        [coord.getD 0 default, coord.getD 1 default]
    ∧ (coord.length = 2 → swapCoord (swapCoord coord) = coord) := by
  refine ⟨featureSpec coord i (t, vl), mkFeature_ok coord i t vl hc hv,
    rfl, ?_, ?_⟩
  · simp [swapCoord, featureSpec]
  · intro h2
    rcases coord with _ | ⟨a, _ | ⟨b, rest⟩⟩
    · simp at h2
    · simp at h2
    · have hrest : rest = [] := by
        simp only [List.length_cons] at h2
        exact List.length_eq_zero.mp (by omega)
      subst hrest
      simp [swapCoord]

/-- Witness for `c6_coordinate_swap` at `coord = [10, 20]`. -/
theorem c6_coordinate_swap_witness :
    ∃ f, mkFeature [(10 : ℚ), 20] 0 0 [5] = .ok f
    ∧ f.coordinates = swapCoord [(10 : ℚ), 20]
    ∧ swapCoord f.coordinates =
        [[(10 : ℚ), 20].getD 0 default, [(10 : ℚ), 20].getD 1 default]
    ∧ ([(10 : ℚ), 20].length = 2 →
        swapCoord (swapCoord [(10 : ℚ), 20]) = [(10 : ℚ), 20]) :=
  c6_coordinate_swap [(10 : ℚ), 20] 0 0 [5] (by decide) (by decide)

/-- A nonempty timeline starts at the origin. -/
theorem buildTimestamps_head (origin step : Int) (total : Nat)
    (h : 0 < total) :
    (buildTimestamps origin step total).head? = some origin := by
  rw [List.head?_eq_getElem?]
  simp [buildTimestamps, List.getElem?_range h]

/-- A nonempty timeline ends at `origin + (total - 1) * step`. -/
theorem buildTimestamps_getLast (origin step : Int) (total : Nat)
    (h : 0 < total) :
    (buildTimestamps origin step total).getLast? =
      some (origin + ((total : Int) - 1) * step) := by
  rw [List.getLast?_eq_getElem?]
  simp only [buildTimestamps, List.length_map, List.length_range,
    List.getElem?_map, List.getElem?_range (show total - 1 < total by omega),
    Option.map_some', Option.some.injEq]
  have : ((total - 1 : Nat) : Int) = (total : Int) - 1 := by omega
  rw [this]

/-- The two output paths never collide. -/
theorem geojson_ne_html (name : String) :
    name ++ ".geojson" ≠ name ++ ".html" := by
  intro h
  have hd : name.data ++ ".geojson".data = name.data ++ ".html".data := by
    have := congrArg String.data h
    simpa [String.data_append] using this
  exact absurd (List.append_inj hd rfl).2 (by decide)

/-- C7: with at most one episode in the trajectory and a positive
timeline, `render` still succeeds and writes both files: the geodata
file holds an empty list of feature collections and the HTML file's
dataset placeholder is filled with the empty list; the file names are
`<name>.geojson` and `<name>.html`. -/
theorem c7_empty_outputs [Inhabited σ] (token : String) (step : Int)
    (posF : σ → List (List α)) (valF : σ → List α) (vt : String)
    (name : String) (ne ns : Nat) (origin : Int)
    (traj : List (List σ)) (fs : FS α)
    (hE : traj.length ≤ 1) (hne : 0 < ne) (hns : 0 < ns) :
    (render (totalOptions token step posF valF vt)
        ⟨some ⟨some name, some ne, some ns⟩⟩ (fun _ => true)
        origin traj fs).2 = none
    ∧ (render (totalOptions token step posF valF vt)
        ⟨some ⟨some name, some ne, some ns⟩⟩ (fun _ => true)
        origin traj fs).1 (name ++ ".geojson") = some (.geojson [])
    ∧ (render (totalOptions token step posF valF vt)
        ⟨some ⟨some name, some ne, some ns⟩⟩ (fun _ => true)
        origin traj fs).1 (name ++ ".html") =
      some (.html { accessToken := token, startTime := origin,
                    stopTime := origin + ((ne * ns : Nat) - 1 : Int) * step,
                    data := [], visualType := vt }) := by
  have htot : 0 < ne * ns := Nat.mul_pos hne hns
  have hext : extract (totalOptions token step posF valF vt) traj =
      .ok ([], []) := by
    unfold extract
    rw [dropLast_eq_nil_of_le_one traj hE]
    rfl
  have hasm : assemble ([] : List (List α))
      (buildTimestamps origin step (ne * ns)) [] = .ok [] := rfl
  have hext' : extract
      { cesium_token := token, step_time := step,
        readPos := fun s => some (posF s),
        readVal := fun s => some (valF s),
        visualization_type := vt } traj = .ok ([], []) := hext
  simp only [render, totalOptions]
  simp only [hext', hasm, buildTimestamps_head origin step (ne * ns) htot,
    buildTimestamps_getLast origin step (ne * ns) htot, if_true]
  refine ⟨trivial, ?_, ?_⟩
  · simp [FS.update, geojson_ne_html name]
  · simp [FS.update]

/-- Witness for `c7_empty_outputs` at an empty trajectory with
`ne = ns = 1`. -/
theorem c7_empty_outputs_witness :
    (render (totalOptions "tok" 3600 Snap.posF Snap.valF "color")
        ⟨some ⟨some "sim", some 1, some 1⟩⟩ (fun _ => true)
        0 ([] : List (List Snap)) (FS.empty ℚ)).2 = none
    ∧ (render (totalOptions "tok" 3600 Snap.posF Snap.valF "color")
        ⟨some ⟨some "sim", some 1, some 1⟩⟩ (fun _ => true)
        0 ([] : List (List Snap)) (FS.empty ℚ)).1
        ("sim" ++ ".geojson") = some (.geojson [])
    ∧ (render (totalOptions "tok" 3600 Snap.posF Snap.valF "color")
        ⟨some ⟨some "sim", some 1, some 1⟩⟩ (fun _ => true)
        0 ([] : List (List Snap)) (FS.empty ℚ)).1
        ("sim" ++ ".html") =
      some (.html { accessToken := "tok", startTime := 0,
                    stopTime := 0 + ((1 * 1 : Nat) - 1 : Int) * 3600,
                    data := [], visualType := "color" }) :=
  c7_empty_outputs "tok" 3600 Snap.posF Snap.valF "color" "sim" 1 1 0
    [] (FS.empty ℚ) (by decide) (by decide) (by decide)

/-- C8: errors propagate uncaught and without cleanup.  First: if the
HTML write fails after the geodata write succeeded, `render` raises the
I/O error and the already-written geodata file remains on disk.
Second: a missing configuration key raises a key error, propagated with
no retry and no default.  Third: a missing state path (a failing
`read_var`) raises a lookup error, likewise propagated uncaught. -/
theorem c8_error_propagation :
    (∀ (σ α : Type) (opts : Options σ α) (name : String) (ne ns : Nat)
       (origin : Int) (traj : List (List σ)) (fs : FS α)
       (cw : String → Bool) (c v : List (List α))
       (gj : List (List (Feature α))),
       cw (name ++ ".geojson") = true →
       cw (name ++ ".html") = false →
       extract opts traj = .ok (c, v) →
       assemble c (buildTimestamps origin opts.step_time (ne * ns)) v =
         .ok gj →
       render opts ⟨some ⟨some name, some ne, some ns⟩⟩ cw origin traj fs =
         (FS.update fs (name ++ ".geojson") (.geojson gj),
          some .ioError))
    ∧ (∀ (σ α : Type) (opts : Options σ α) (cw : String → Bool)
         (origin : Int) (traj : List (List σ)) (fs : FS α),
         render opts ⟨none⟩ cw origin traj fs = (fs, some .keyError))
    ∧ (∀ (σ α : Type) (opts : Options σ α) (name : String)
         (md : SimMetadata) (cw : String → Bool) (origin : Int)
         (ep0 : List σ) (rest : List (List σ)) (fs : FS α) (s0 : σ),
         md.name = some name → rest ≠ [] →
         ep0.getLast? = some s0 → opts.readPos s0 = none →
         render opts ⟨some md⟩ cw origin (ep0 :: rest) fs =
           (fs, some .lookupError)) := by
  refine ⟨?_, ?_, ?_⟩
  · intro σ α opts name ne ns origin traj fs cw c v gj hcw1 hcw2 hext hasm
    simp only [render, hext, hasm, hcw1, hcw2]
    simp
  · intro σ α opts cw origin traj fs
    rfl
  · intro σ α opts name md cw origin ep0 rest fs s0 hname hrest hlast hpos
    rcases rest with _ | ⟨ep1, rest'⟩
    · exact absurd rfl hrest
    · have hext : extract opts (ep0 :: ep1 :: rest') =
          .error .lookupError := by
        unfold extract
        rw [List.dropLast_cons₂]
        simp only [extractLoop, extractStep, hlast, hpos]
      simp only [render, hname, hext]

/-- Options whose position reader always fails, modelling a bad
`coordinates` path. -/
def optsFail : Options Snap ℚ :=
  { cesium_token := "tok", step_time := 3600,
    readPos := fun _ => none, readVal := fun s => some s.val,
    visualization_type := "color" }

/-- Witness for `c8_error_propagation`: all three parts applied at
concrete inputs. -/
theorem c8_error_propagation_witness :
    render optsC5 ⟨some ⟨some "sim", some 1, some 1⟩⟩
        (fun p => p == "sim.geojson") 0 trajC5 (FS.empty ℚ) =
      (FS.update (FS.empty ℚ) ("sim" ++ ".geojson")
        (.geojson [[{ coordinates := [20, 10], value := 1, time := 0 }],
                   [{ coordinates := [40, 30], value := 2, time := 0 }]]),
       some .ioError)
    ∧ render optsC5 ⟨none⟩ (fun _ => true) 0 trajC5 (FS.empty ℚ) =
        (FS.empty ℚ, some .keyError)
    ∧ render optsFail ⟨some ⟨some "sim", some 1, some 1⟩⟩ (fun _ => true) 0
        [[(⟨[], []⟩ : Snap)], [⟨[], []⟩]] (FS.empty ℚ) =
        (FS.empty ℚ, some .lookupError) :=
  ⟨c8_error_propagation.1 Snap ℚ optsC5 "sim" 1 1 0 trajC5 (FS.empty ℚ)
      (fun p => p == "sim.geojson") [[10, 20], [30, 40]] [[1, 2], [3, 4]]
      [[{ coordinates := [20, 10], value := 1, time := 0 }],
       [{ coordinates := [40, 30], value := 2, time := 0 }]]
      (by decide) (by decide) rfl rfl,
   c8_error_propagation.2.1 Snap ℚ optsC5 (fun _ => true) 0 trajC5
      (FS.empty ℚ),
   c8_error_propagation.2.2 Snap ℚ optsFail "sim"
      ⟨some "sim", some 1, some 1⟩ (fun _ => true) 0 [⟨[], []⟩]
      [[⟨[], []⟩]] (FS.empty ℚ) ⟨[], []⟩ rfl (by decide) (by decide) rfl⟩

/-- C9: with the wall-clock origin fixed, `render` is a deterministic
function of its inputs: two calls with identical options, configuration,
write oracle, origin and trajectory raise the same error and, on
success, put identical contents into the two output files, whatever the
prior contents of the filesystem were. -/
theorem c9_deterministic (σ α : Type) (opts : Options σ α) (cfg : Config)
    (cw : String → Bool) (origin : Int) (traj : List (List σ))
    (name : String) (fs fs' : FS α)
    (hname : cfg.simulation_metadata.bind SimMetadata.name = some name) :
    (render opts cfg cw origin traj fs).2 =
      (render opts cfg cw origin traj fs').2
    ∧ ((render opts cfg cw origin traj fs).2 = none →
        (render opts cfg cw origin traj fs).1 (name ++ ".geojson") =
          (render opts cfg cw origin traj fs').1 (name ++ ".geojson")
        ∧ (render opts cfg cw origin traj fs).1 (name ++ ".html") =
          (render opts cfg cw origin traj fs').1 (name ++ ".html")) := by
  cases hc : cfg.simulation_metadata with
  | none => rw [hc] at hname; simp at hname
  | some md =>
    cases hn : md.name with
    | none => rw [hc] at hname; simp [hn] at hname
    | some name' =>
      have hnm : name' = name := by
        rw [hc] at hname
        simpa [hn] using hname
      subst hnm
      simp only [render, hc, hn]
      cases hext : extract opts traj with
      | error e => simp [hext]
      | ok cv =>
        obtain ⟨c, v⟩ := cv
        cases hne : md.num_episodes with
        | none => simp [hext, hne]
        | some ne =>
          cases hns : md.num_steps_per_episode with
          | none => simp [hext, hne, hns]
          | some ns =>
            cases hasm : assemble c
                (buildTimestamps origin opts.step_time (ne * ns)) v with
            | error e => simp [hext, hne, hns, hasm]
            | ok gj =>
              cases hcw1 : cw (name' ++ ".geojson") with
              | false => simp [hext, hne, hns, hasm, hcw1]
              | true =>
                cases hcw2 : cw (name' ++ ".html") with
                | false => simp [hext, hne, hns, hasm, hcw1, hcw2]
                | true =>
                  cases h0 : (buildTimestamps origin opts.step_time
                      (ne * ns)).head? with
                  | none =>
                    cases h1 : (buildTimestamps origin opts.step_time
                        (ne * ns)).getLast? <;>
                      simp [hext, hne, hns, hasm, hcw1, hcw2, h0]
                  | some t0 =>
                    cases h1 : (buildTimestamps origin opts.step_time
                        (ne * ns)).getLast? with
                    | none =>
                      simp [hext, hne, hns, hasm, hcw1, hcw2, h0, h1]
                    | some t1 =>
                      simp only [hext, hne, hns, hasm, hcw1, hcw2, h0, h1,
                        if_true]
                      refine ⟨trivial, fun _ => ⟨?_, ?_⟩⟩ <;>
                        simp [FS.update]

/-- If some visited episode is empty, the extraction loop raises the
index error of `state_trajectory[i][-1]`. -/
theorem extractLoop_err [Inhabited σ] (token : String) (step : Int)
    (posF : σ → List (List α)) (valF : σ → List α) (vt : String) :
    ∀ (eps : List (List σ)) (c0 v0 : List (List α)),
    (∃ ep ∈ eps, ep = []) →
    extractLoop (totalOptions token step posF valF vt) eps c0 v0 =
      .error .indexError := by
  intro eps
  induction eps with
  | nil =>
    rintro c0 v0 ⟨ep, hmem, _⟩
    exact absurd hmem (List.not_mem_nil ep)
  | cons ep rest ih =>
    rintro c0 v0 ⟨e, he, hnil⟩
    by_cases hep : ep = []
    · subst hep
      simp [extractLoop, extractStep]
    · have hmem : e ∈ rest := by
        rcases List.mem_cons.mp he with h1 | h1
        · exact absurd (h1 ▸ hnil) hep
        · exact h1
      simp only [extractLoop,
        extractStep_total token step posF valF vt ep hep]
      exact ih _ _ ⟨e, hmem, hnil⟩

/-- If any visited episode is empty, `extract` raises an index error. -/
theorem extract_err [Inhabited σ] (token : String) (step : Int)
    (posF : σ → List (List α)) (valF : σ → List α) (vt : String)
    (traj : List (List σ)) (h : ¬ ∀ ep ∈ traj.dropLast, ep ≠ []) :
    extract (totalOptions token step posF valF vt) traj =
      .error .indexError := by
  unfold extract
  apply extractLoop_err
  push_neg at h
  obtain ⟨ep, hmem, hnil⟩ := h
  exact ⟨ep, hmem, hnil⟩

/-- A nonempty extracted coordinate list forces at least one visited
episode, hence a nonempty value list. -/
theorem coordsSpec_ne_nil_values [Inhabited σ]
    (posF : σ → List (List α)) (valF : σ → List α)
    (traj : List (List σ)) (h : coordsSpec posF traj ≠ []) :
    valuesSpec valF traj ≠ [] := by
  unfold coordsSpec at h
  unfold valuesSpec
  intro hv
  apply h
  have hnil : traj.dropLast = [] := by
    cases hd : traj.dropLast with
    | nil => rfl
    | cons a l => rw [hd] at hv; simp at hv
  rw [hnil]
  rfl

/-- The only error `mkFeature` raises is an index error. -/
theorem mkFeature_err (coord : List α) (i : Nat) (t : Int) (vl : List α)
    (e : Err) (h : mkFeature coord i t vl = .error e) : e = .indexError := by
  unfold mkFeature at h
  cases hc1 : coord[1]? with
  | none => simp [hc1] at h; exact h.symm
  | some c1 =>
    cases hc0 : coord[0]? with
    | none => simp [hc1, hc0] at h; exact h.symm
    | some c0 =>
      cases hvi : vl[i]? with
      | none => simp [hc1, hc0, hvi] at h; exact h.symm
      | some v => simp [hc1, hc0, hvi] at h

/-- A successful `mkFeature` call certifies its three subscripts. -/
theorem mkFeature_ok_bounds (coord : List α) (i : Nat) (t : Int)
    (vl : List α) (f : Feature α) (h : mkFeature coord i t vl = .ok f) :
    2 ≤ coord.length ∧ i < vl.length := by
  unfold mkFeature at h
  cases hc1 : coord[1]? with
  | none => simp [hc1] at h
  | some c1 =>
    cases hc0 : coord[0]? with
    | none => simp [hc1, hc0] at h
    | some c0 =>
      cases hvi : vl[i]? with
      | none => simp [hc1, hc0, hvi] at h
      | some v =>
        have h1 : 1 < coord.length := (List.getElem?_eq_some_iff.mp hc1).1
        have h2 : i < vl.length := (List.getElem?_eq_some_iff.mp hvi).1
        exact ⟨by omega, h2⟩

/-- The only error the inner assembly loop raises is an index error. -/
theorem buildFeatures_err (coord : List α) (i : Nat) :
    ∀ (pairs : List (Int × List α)) (e : Err),
    buildFeatures coord i pairs = .error e → e = .indexError := by
  intro pairs
  induction pairs with
  | nil => intro e h; simp [buildFeatures] at h
  | cons q rest ih =>
    intro e h
    obtain ⟨t, vl⟩ := q
    unfold buildFeatures at h
    cases hmk : mkFeature coord i t vl with
    | error e' =>
      simp only [hmk] at h
      injection h with h'
      rw [← h']
      exact mkFeature_err coord i t vl e' hmk
    | ok f =>
      simp only [hmk] at h
      cases hrest : buildFeatures coord i rest with
      | error e' =>
        simp only [hrest] at h
        injection h with h'
        rw [← h']
        exact ih e' hrest
      | ok fl => simp [hrest] at h

/-- The only error the outer assembly loop raises is an index error. -/
theorem assembleLoop_err (ts : List Int) (values : List (List α)) :
    ∀ (entities : List (Nat × List α)) (e : Err),
    assembleLoop ts values entities = .error e → e = .indexError := by
  intro entities
  induction entities with
  | nil => intro e h; simp [assembleLoop] at h
  | cons q rest ih =>
    intro e h
    obtain ⟨i, coord⟩ := q
    unfold assembleLoop at h
    cases hbf : buildFeatures coord i (ts.zip values) with
    | error e' =>
      simp only [hbf] at h
      injection h with h'
      rw [← h']
      exact buildFeatures_err coord i (ts.zip values) e' hbf
    | ok fl =>
      simp only [hbf] at h
      cases hrest : assembleLoop ts values rest with
      | error e' =>
        simp only [hrest] at h
        injection h with h'
        rw [← h']
        exact ih e' hrest
      | ok fls => simp [hrest] at h

/-- The only error `assemble` raises is an index error. -/
theorem assemble_err (coords : List (List α)) (ts : List Int)
    (values : List (List α)) (e : Err)
    (h : assemble coords ts values = .error e) : e = .indexError :=
  assembleLoop_err ts values coords.enum e h

/-- A successful inner assembly loop certifies the bounds of every pair
it consumed. -/
theorem buildFeatures_ok_bounds (coord : List α) (i : Nat) :
    ∀ (pairs : List (Int × List α)) (fl : List (Feature α)),
    buildFeatures coord i pairs = .ok fl →
    ∀ p ∈ pairs, 2 ≤ coord.length ∧ i < p.2.length := by
  intro pairs
  induction pairs with
  | nil => intro fl _ p hp; exact absurd hp (List.not_mem_nil p)
  | cons q rest ih =>
    intro fl h p hp
    obtain ⟨t, vl⟩ := q
    unfold buildFeatures at h
    cases hmk : mkFeature coord i t vl with
    | error e => simp [hmk] at h
    | ok f =>
      simp only [hmk] at h
      cases hrest : buildFeatures coord i rest with
      | error e => simp [hrest] at h
      | ok fls =>
        rcases List.mem_cons.mp hp with h1 | hmem
        · subst h1
          exact mkFeature_ok_bounds coord i t vl f hmk
        · exact ih fls hrest p hmem

/-- A successful outer assembly loop certifies a successful inner loop
for every entity it consumed. -/
theorem assembleLoop_ok_mem (ts : List Int) (values : List (List α)) :
    ∀ (entities : List (Nat × List α)) (gj : List (List (Feature α))),
    assembleLoop ts values entities = .ok gj →
    ∀ q ∈ entities, ∃ fl, buildFeatures q.2 q.1 (ts.zip values) = .ok fl := by
  intro entities
  induction entities with
  | nil => intro gj _ q hq; exact absurd hq (List.not_mem_nil q)
  | cons q0 rest ih =>
    intro gj h q hq
    obtain ⟨i, coord⟩ := q0
    unfold assembleLoop at h
    cases hbf : buildFeatures coord i (ts.zip values) with
    | error e => simp [hbf] at h
    | ok fl =>
      simp only [hbf] at h
      cases hrest : assembleLoop ts values rest with
      | error e => simp [hrest] at h
      | ok fls =>
        rcases List.mem_cons.mp hq with h1 | hmem
        · subst h1
          exact ⟨fl, hbf⟩
        · exact ih fls hrest q hmem

/-- With a nonempty timeline, a successful assembly certifies the
index-safety hypotheses on the entities it consumed: every coordinate
has at least two components, and every value list paired with a
timestamp covers every entity index. -/
theorem assemble_ok_bounds (coords : List (List α)) (ts : List Int)
    (values : List (List α)) (gj : List (List (Feature α)))
    (hts : ts ≠ []) (hcv : coords ≠ [] → values ≠ [])
    (h : assemble coords ts values = .ok gj) :
    (∀ coord ∈ coords, 2 ≤ coord.length)
    ∧ ∀ (t : Nat) (vl : List α), t < ts.length → values[t]? = some vl →
        coords.length ≤ vl.length := by
  constructor
  · intro coord hmem
    obtain ⟨i, hi⟩ := List.mem_iff_getElem?.mp hmem
    have henum : (i, coord) ∈ coords.enum :=
      List.mk_mem_enum_iff_getElem?.mpr hi
    obtain ⟨fl, hfl⟩ :=
      assembleLoop_ok_mem ts values coords.enum gj h (i, coord) henum
    have hvne : values ≠ [] := by
      apply hcv
      intro hc
      rw [hc] at hmem
      exact absurd hmem (List.not_mem_nil coord)
    have hzip : ts.zip values ≠ [] := by
      intro hz
      rcases List.zip_eq_nil_iff.mp hz with h1 | h1
      · exact hts h1
      · exact hvne h1
    obtain ⟨p, rest, hpr⟩ := List.exists_cons_of_ne_nil hzip
    have hpmem : p ∈ ts.zip values := by
      rw [hpr]; exact List.mem_cons_self _ _
    exact (buildFeatures_ok_bounds coord i (ts.zip values) fl hfl p hpmem).1
  · intro t vl ht hvl
    by_cases hcnil : coords = []
    · subst hcnil; simp
    · by_contra hlen
      push_neg at hlen
      have hcoord : coords[vl.length]? = some coords[vl.length] :=
        List.getElem?_eq_getElem hlen
      have henum : (vl.length, coords[vl.length]) ∈ coords.enum :=
        List.mk_mem_enum_iff_getElem?.mpr hcoord
      obtain ⟨fl, hfl⟩ :=
        assembleLoop_ok_mem ts values coords.enum gj h _ henum
      have hzmem : ((ts.get ⟨t, ht⟩, vl) : Int × List α) ∈ ts.zip values := by
        apply List.getElem?_mem (n := t)
        apply List.getElem?_zip_eq_some.mpr
        exact ⟨by simp [List.getElem?_eq_getElem ht], hvl⟩
      have hbound :=
        (buildFeatures_ok_bounds coords[vl.length] vl.length
          (ts.zip values) fl hfl _ hzmem).2
      simp only at hbound
      omega

/-- With an empty timeline the assembly loop succeeds and yields one
empty feature list per entity: no subscript is ever evaluated. -/
theorem assemble_nil_ts (coords values : List (List α)) :
    assemble coords ([] : List Int) values =
      .ok (coords.map fun _ => []) := by
  unfold assemble
  have hz : (([] : List Int)).zip values = [] := rfl
  have main : ∀ entities : List (Nat × List α),
      assembleLoop ([] : List Int) values entities =
        .ok (entities.map fun _ => []) := by
    intro entities
    induction entities with
    | nil => rfl
    | cons q rest ih =>
      obtain ⟨i, coord⟩ := q
      simp only [assembleLoop, hz, buildFeatures, ih]
      simp
  rw [main coords.enum]
  rw [List.map_const', List.map_const', List.enum_length]

/-- C10 (amended): with total readers, a complete configuration and a
writable filesystem, the index accesses of `render` are all in bounds —
and the run succeeds — exactly when (a) every visited episode is
nonempty, (b) every extracted coordinate has at least two components,
(c) every visited episode whose index lies below the timeline length has
a flattened value list covering all entities, and (d) the timeline is
nonempty.  If (a) fails, or (b) or the restricted (c) fails while the
timeline is nonempty, `render` raises an index error; if (d) fails, the
geodata file is written, the HTML file is truncated/created empty by
`open`, and then `timestamps[0]` raises an index error, so the HTML
content is never written — the HTML file is left empty on disk. -/
theorem c10_index_errors [Inhabited σ] [Inhabited α] (token : String)
    (step : Int) (posF : σ → List (List α)) (valF : σ → List α)
    (vt name : String) (ne ns : Nat) (origin : Int)
    (traj : List (List σ)) (fs : FS α) :
    ((∀ ep ∈ traj.dropLast, ep ≠ []) →
      ∀ c v : List (List α),
      extract (totalOptions token step posF valF vt) traj = .ok (c, v) →
      (∀ coord ∈ c, 2 ≤ coord.length) →
      (∀ (t : Nat) (vl : List α), t < ne * ns → v[t]? = some vl →
        c.length ≤ vl.length) →
      0 < ne * ns →
      (render (totalOptions token step posF valF vt)
        ⟨some ⟨some name, some ne, some ns⟩⟩ (fun _ => true)
        origin traj fs).2 = none)
    ∧ (¬ (∀ ep ∈ traj.dropLast, ep ≠ []) →
        render (totalOptions token step posF valF vt)
          ⟨some ⟨some name, some ne, some ns⟩⟩ (fun _ => true)
          origin traj fs = (fs, some .indexError))
    ∧ ((∀ ep ∈ traj.dropLast, ep ≠ []) →
        ∀ c v : List (List α),
        extract (totalOptions token step posF valF vt) traj = .ok (c, v) →
        0 < ne * ns →
        ¬ ((∀ coord ∈ c, 2 ≤ coord.length)
           ∧ ∀ (t : Nat) (vl : List α), t < ne * ns → v[t]? = some vl →
             c.length ≤ vl.length) →
        (render (totalOptions token step posF valF vt)
          ⟨some ⟨some name, some ne, some ns⟩⟩ (fun _ => true)
          origin traj fs).2 = some .indexError)
    ∧ ((∀ ep ∈ traj.dropLast, ep ≠ []) →
        ∀ c v : List (List α),
        extract (totalOptions token step posF valF vt) traj = .ok (c, v) →
        ne * ns = 0 →
        (render (totalOptions token step posF valF vt)
          ⟨some ⟨some name, some ne, some ns⟩⟩ (fun _ => true)
          origin traj fs).2 = some .indexError
        ∧ (render (totalOptions token step posF valF vt)
            ⟨some ⟨some name, some ne, some ns⟩⟩ (fun _ => true)
            origin traj fs).1 (name ++ ".geojson") =
          some (.geojson (c.map fun _ => []))
        ∧ (render (totalOptions token step posF valF vt)
            ⟨some ⟨some name, some ne, some ns⟩⟩ (fun _ => true)
            origin traj fs).1 (name ++ ".html") = some .empty) := by
  have hst : (totalOptions token step posF valF vt :
      Options σ α).step_time = step := rfl
  have hlen : (buildTimestamps origin step (ne * ns)).length = ne * ns := by
    simp [buildTimestamps]
  refine ⟨?_, ?_, ?_, ?_⟩
  · intro hA c v hext hB hC hD
    have hasm : assemble c (buildTimestamps origin step (ne * ns)) v =
        .ok (assembleSpec c (buildTimestamps origin step (ne * ns)) v) := by
      apply assemble_ok _ _ _ hB
      intro p hp
      obtain ⟨t, hzt⟩ := List.mem_iff_getElem?.mp hp
      obtain ⟨hts, hvs⟩ := List.getElem?_zip_eq_some.mp hzt
      have htlen : t < ne * ns := by
        have h1 := (List.getElem?_eq_some_iff.mp hts).1
        omega
      exact hC t p.2 htlen hvs
    simp only [render, hext, hst, hasm,
      buildTimestamps_head origin step (ne * ns) hD,
      buildTimestamps_getLast origin step (ne * ns) hD, if_true]
  · intro hA
    have hext := extract_err token step posF valF vt traj hA
    simp only [render, hext]
  · intro hA c v hext hD hBC
    have htot := extract_total token step posF valF vt traj hA
    rw [hext] at htot
    have hpair : (c, v) =
        (coordsSpec posF traj, valuesSpec valF traj) :=
      (Except.ok.injEq _ _).mp htot
    rw [Prod.mk.injEq] at hpair
    obtain ⟨hc', hv'⟩ := hpair
    have hcv : c ≠ [] → v ≠ [] := by
      intro hcne
      rw [hc'] at hcne
      rw [hv']
      exact coordsSpec_ne_nil_values posF valF traj hcne
    cases hasm : assemble c (buildTimestamps origin step (ne * ns)) v with
    | ok gj =>
      exfalso
      apply hBC
      have htsne : buildTimestamps origin step (ne * ns) ≠ [] := by
        intro hnil
        have hlen0 : (buildTimestamps origin step (ne * ns)).length = 0 := by
          rw [hnil]; rfl
        omega
      have hb := assemble_ok_bounds c
        (buildTimestamps origin step (ne * ns)) v gj htsne hcv hasm
      refine ⟨hb.1, ?_⟩
      intro t vl ht hvl
      exact hb.2 t vl (by omega) hvl
    | error e =>
      have he := assemble_err c (buildTimestamps origin step (ne * ns)) v
        e hasm
      subst he
      simp only [render, hext, hst, hasm]
  · intro hA c v hext hD0
    have hts : buildTimestamps origin step (ne * ns) = [] := by
      rw [hD0]; rfl
    have hasm : assemble c (buildTimestamps origin step (ne * ns)) v =
        .ok (c.map fun _ => []) := by
      rw [hts]; exact assemble_nil_ts c v
    have hhead : (buildTimestamps origin step (ne * ns)).head? = none := by
      rw [hts]; rfl
    refine ⟨?_, ?_, ?_⟩
    · simp only [render, hext, hst, hasm, hhead, if_true]
    · simp only [render, hext, hst, hasm, hhead, if_true]
      simp [FS.update, geojson_ne_html name]
    · simp only [render, hext, hst, hasm, hhead, if_true]
      simp [FS.update]

/-- The trajectory refuting the unamended C10: three one-snapshot
episodes; the second visited episode's flattened value list is empty
(shorter than the coordinate list), but its episode index (1) is not
below the timeline length (1), so the missing value is never
subscripted. -/
def trajC10 : List (List Snap) :=
  [[⟨[[10, 20]], [5]⟩], [⟨[[10, 20]], []⟩], [⟨[], []⟩]]

/-- Counterexample to C10 as stated: hypotheses (a), (b) and (d) hold,
hypothesis (c) fails — episode 1's flattened value list `[]` is shorter
than the extracted `coords` of length 1 — and yet `render` raises no
error at all, let alone an index error. -/
theorem c10_counterexample :
    extract (totalOptions "tok" 3600 Snap.posF Snap.valF "color")
        trajC10 = .ok ([[10, 20]], [[5], []])
    ∧ (∀ ep ∈ trajC10.dropLast, ep ≠ [])
    ∧ (∀ coord ∈ [[(10 : ℚ), 20]], 2 ≤ coord.length)
    ∧ 0 < 1 * 1
    ∧ (∃ vl, [[(5 : ℚ)], []][1]? = some vl
        ∧ vl.length < ([[(10 : ℚ), 20]]).length)
    ∧ (render (totalOptions "tok" 3600 Snap.posF Snap.valF "color")
        ⟨some ⟨some "sim", some 1, some 1⟩⟩ (fun _ => true) 0 trajC10
        (FS.empty ℚ)).2 = none :=
  ⟨rfl, by decide, by decide, by decide, ⟨[], rfl, by decide⟩, by decide⟩

/-- Witness for `c10_index_errors`: the forward (safety) part applied
at the §8 scenario. -/
theorem c10_index_errors_witness :
    (render (totalOptions "tok" 3600 Snap.posF Snap.valF "color")
      ⟨some ⟨some "sim", some 3, some 2⟩⟩ (fun _ => true) 0 trajC5
      (FS.empty ℚ)).2 = none :=
  (c10_index_errors "tok" 3600 Snap.posF Snap.valF "color" "sim" 3 2 0
      trajC5 (FS.empty ℚ)).1 (by decide) [[10, 20], [30, 40]]
    [[1, 2], [3, 4]] rfl (by decide)
    (by
      intro t vl ht hvl
      have ht2 : t < 2 := by
        have h1 := (List.getElem?_eq_some_iff.mp hvl).1
        simpa using h1
      interval_cases t <;> simp_all <;> rw [← hvl] <;> decide)
    (by decide)

/-- A filesystem with stale content at every path, for the determinism
witness. -/
def fsAlt : FS ℚ := fun _ => some (.geojson [])

/-- Witness for `c9_deterministic` at the §8 scenario, comparing a run
over an empty filesystem with a run over a fully populated one. -/
theorem c9_deterministic_witness :
    (render optsC5 cfgC5 (fun _ => true) 0 trajC5 (FS.empty ℚ)).2 =
      (render optsC5 cfgC5 (fun _ => true) 0 trajC5 fsAlt).2
    ∧ ((render optsC5 cfgC5 (fun _ => true) 0 trajC5 (FS.empty ℚ)).2 =
        none →
        (render optsC5 cfgC5 (fun _ => true) 0 trajC5 (FS.empty ℚ)).1
            ("sim" ++ ".geojson") =
          (render optsC5 cfgC5 (fun _ => true) 0 trajC5 fsAlt).1
            ("sim" ++ ".geojson")
        ∧ (render optsC5 cfgC5 (fun _ => true) 0 trajC5 (FS.empty ℚ)).1
            ("sim" ++ ".html") =
          (render optsC5 cfgC5 (fun _ => true) 0 trajC5 fsAlt).1
            ("sim" ++ ".html")) :=
  c9_deterministic Snap ℚ optsC5 cfgC5 (fun _ => true) 0 trajC5 "sim"
    (FS.empty ℚ) fsAlt rfl
